import Mathlib

set_option autoImplicit false

/-!
Verification development for the OML measurement-collection code base.

The definitions below are a shallow embedding of the C sources:

* server/psql_adapter.c — the PostgreSQL database adapter (key/value
  metadata store, sender-id allocation, binary parameter encoders, the
  per-row insert routine with its transaction heartbeat, and table-list
  rediscovery);
* lib/oml_utils.c — collection-URI parsing (parse_uri, oml_uri_type);
* lib/shared/zlib_utils.c — the gzip-framed deflate/inflate helpers.

Machine integers are modelled as Nat/Int with explicit reductions modulo
2^w where the C code truncates; fallible calls return Option or carry an
explicit return code.  External-environment outcomes (libpq statement
failures, FILE I/O errors, the zlib codec) are passed in as explicit
parameters where a claim depends on them.
-/

namespace OML

/-! ## Small C-library models: atoi and sprintf("%d") -/

/-- Digit-accumulating loop of atoi: consume decimal digits, stop at the
first non-digit character. -/
def atoiDigits : List Char → Nat → Nat
  | [], acc => acc
  | c :: cs, acc =>
      if c.isDigit then atoiDigits cs (acc * 10 + (c.toNat - 48)) else acc

/-- Model of C atoi(3): optional sign followed by decimal digits; parsing
stops at the first non-digit, and a string with no leading digits (such as
the empty rendering of an SQL NULL) yields 0.  Leading whitespace never
occurs in the strings this code passes to atoi and is not modelled. -/
def atoi (s : String) : Int :=
  match s.toList with
  | '-' :: cs => - (atoiDigits cs 0 : Int)
  | '+' :: cs => (atoiDigits cs 0 : Int)
  | cs => (atoiDigits cs 0 : Int)

/-- Decimal digits of a natural number, most significant first; the first
argument is fuel making the recursion structural (any fuel above the digit
count gives the same digits). -/
def natDigitsAux : Nat → Nat → List Char
  | 0, _ => []
  | fuel + 1, n =>
      if n = 0 then []
      else natDigitsAux fuel (n / 10) ++ [Char.ofNat (48 + n % 10)]

/-- Decimal digits of a natural number, most significant first. -/
def natDigits (n : Nat) : List Char := natDigitsAux (n + 1) n

/-- Model of sprintf("%d"): the decimal rendering of an integer, as used by
psql_set_sender_id to store a sender id in the _senders table. -/
def renderInt (i : Int) : String :=
  if i < 0 then ⟨'-' :: natDigits i.natAbs⟩
  else if i = 0 then "0"
  else ⟨natDigits i.natAbs⟩

/-! ## Key/value tables (psql_get_key_value / psql_set_key_value)

A key-value style table is modelled as its rows in scan order, each row
reduced to the two columns the functions touch (the key column and the
value column).  Statement execution failures of libpq (lost connections,
malformed SQL) are environment errors and are not modelled: every modelled
statement executes. -/

/-- Rows of a key-value style table: (key column, value column) in scan
order. -/
abbrev KVTable := List (String × String)

/-- Embedding of psql_get_key_value (psql_adapter.c:951): runs SELECT
value_column FROM table WHERE key_column = key and returns the value of the
first result row (PQgetvalue(res, 0, 0), duplicated), or NULL when the
result set is empty.  When more than one row matches, the C code logs a
warning and still uses the first row. -/
def psql_get_key_value : KVTable → String → Option String
  | [], _ => none
  | (k, v) :: rows, key =>
      if k = key then some v else psql_get_key_value rows key

/-- Which SQL statement psql_set_key_value built and executed. -/
inductive KVStmt
  | insertStmt
  | updateStmt
  deriving DecidableEq, Repr

/-- Result of psql_set_key_value: the table after the statement ran, the
kind of statement issued, and the C return value. -/
structure KVSetOut where
  table : KVTable
  stmt : KVStmt
  ret : Int
  deriving DecidableEq, Repr

/-- Embedding of psql_set_key_value (psql_adapter.c:1011): first looks the
key up with psql_get_key_value; when absent it executes INSERT INTO table
(key_column, value_column) VALUES (key, value), otherwise UPDATE table SET
value_column = value WHERE key_column = key.  The UPDATE rewrites every row
whose key column matches; the INSERT appends exactly one row.  sql_stmt
failure (a database error) would return -1 and is an unmodelled
environment outcome, so ret is always 0 here. -/
def psql_set_key_value (tbl : KVTable) (key value : String) : KVSetOut :=
  match psql_get_key_value tbl key with
  | none => ⟨tbl ++ [(key, value)], KVStmt.insertStmt, 0⟩
  | some _ =>
      ⟨tbl.map (fun r => if r.1 = key then (r.1, value) else r),
        KVStmt.updateStmt, 0⟩

/-- Number of rows of the table whose key column equals key. -/
def kvRowCount (tbl : KVTable) (key : String) : Nat :=
  (tbl.filter (fun r => decide (r.1 = key))).length

/-! ## Sender-id allocation (psql_add_sender_id) -/

/-- Embedding of psql_get_sender_id (psql_adapter.c:1274):
psql_get_key_value on the _senders table with key column name and value
column id. -/
def psql_get_sender_id (senders : KVTable) (name : String) : Option String :=
  psql_get_key_value senders name

/-- Result row of SELECT MAX(id) FROM _senders: the aggregate always yields
exactly one row, whose value is NULL (none) when the table has no rows. -/
def sqlMaxId (senders : KVTable) : Option Int :=
  match senders.map (fun r => atoi r.2) with
  | [] => none
  | x :: xs => some (xs.foldl max x)

/-- PQgetvalue rendering of the MAX(id) cell: a NULL cell is returned as
the empty string. -/
def pqValueOfMax : Option Int → String
  | none => ""
  | some m => renderInt m

/-- Embedding of psql_add_sender_id (psql_adapter.c:1055).  A known name
returns atoi of its stored id.  For a fresh name the code runs SELECT
MAX(id) FROM _senders; on a healthy connection that query always returns
exactly one row (so the rows == 0 restart-at-0 branch of the C code is
unreachable and not modelled), and the allocated index is
atoi(PQgetvalue(res, 0, 0)) + 1, where the NULL max of an empty table
renders as the empty string and atoi of it is 0.  The pair is then stored
through psql_set_sender_id, which renders the index with sprintf("%d"). -/
def psql_add_sender_id (senders : KVTable) (name : String) : Int × KVTable :=
  match psql_get_sender_id senders name with
  | some idStr => (atoi idStr, senders)
  | none =>
      let index : Int := atoi (pqValueOfMax (sqlMaxId senders)) + 1
      (index, (psql_set_key_value senders name (renderInt index)).table)

/-! ## OML values and the PostgreSQL binary parameter encoders

OmlValue is a tagged union in C (OmlValueT tag plus an OmlValueU union).
The union members alias one memory region; the model keeps one slot per
member, and each omlc_get_* accessor reads its own slot.  A read through a
member other than the one the producer stored (type punning, which the
missing break statements below make the code perform) thus returns
whatever the model carries in that slot; concrete inputs in the theorems
choose slot contents consistent with a little-endian union overlay.
Doubles are carried by their IEEE-754 bit pattern only (the adapter never
does arithmetic on them, it just byte-swaps the representation). -/

/-- Semantic value types of OML (OmlValueT). -/
inductive OmlValueT
  | OML_LONG_VALUE
  | OML_INT32_VALUE
  | OML_UINT32_VALUE
  | OML_INT64_VALUE
  | OML_UINT64_VALUE
  | OML_DOUBLE_VALUE
  | OML_GUID_VALUE
  | OML_BOOL_VALUE
  | OML_STRING_VALUE
  | OML_BLOB_VALUE
  | OML_VECTOR_DOUBLE_VALUE
  | OML_VECTOR_INT32_VALUE
  | OML_VECTOR_UINT32_VALUE
  | OML_VECTOR_INT64_VALUE
  | OML_VECTOR_UINT64_VALUE
  | OML_VECTOR_BOOL_VALUE
  deriving DecidableEq, Repr

/-- Member slots of the OmlValueU union (see the note above on aliasing). -/
structure OmlValueU where
  longValue : Int
  int32Value : Int
  uint32Value : Nat
  int64Value : Int
  uint64Value : Nat
  doubleBits : Nat
  guidValue : Nat
  boolValue : Bool
  stringValue : String
  blobValue : List Nat
  vectorValue : List Int
  deriving DecidableEq, Repr

/-- An OML value: semantic type tag plus the union. -/
structure OmlValue where
  vtype : OmlValueT
  value : OmlValueU
  deriving DecidableEq, Repr

/-- Accessor oml_value_get_type. -/
def oml_value_get_type (v : OmlValue) : OmlValueT := v.vtype

/-- Big-endian byte string of width w of a natural number (reduced modulo
256 ^ w): the htonl / htonll network encodings. -/
def beBytes : Nat → Nat → List Nat
  | 0, _ => []
  | w + 1, val => (val / 256 ^ w) % 256 :: beBytes w val

/-- Unsigned reduction of an integer modulo 2 ^ w (the C truncating cast to
a w-bit unsigned representation). -/
def toUInt (w : Nat) (i : Int) : Nat := (i % ((2 ^ w : Nat) : Int)).toNat

/-- A bound parameter as handed to PQexecPrepared: either binary content
with its paramLength (paramFormat = 1) or text content (paramFormat = 0,
paramLength left at 0, the string being null-terminated). -/
inductive ParamData
  | bin (bytes : List Nat) (len : Nat)
  | txt (s : String)
  deriving DecidableEq, Repr

/-- psql_set_int32_value (psql_adapter.c:188): htonl of the 32-bit pattern
of the value, 4 bytes, paramLength sizeof(int32_t) = 4. -/
def psql_set_int32_value (val : Int) : ParamData :=
  ParamData.bin (beBytes 4 (toUInt 32 val)) 4

/-- psql_set_long_value (psql_adapter.c:124): casts the long to int32_t and
delegates to psql_set_int32_value (the reduction modulo 2 ^ 32 is already
performed there, so the bytes coincide). -/
def psql_set_long_value (val : Int) : ParamData := psql_set_int32_value val

/-- psql_set_int64_value (psql_adapter.c:219): htonll of the 64-bit
pattern, 8 bytes, paramLength 8. -/
def psql_set_int64_value (val : Int) : ParamData :=
  ParamData.bin (beBytes 8 (toUInt 64 val)) 8

/-- psql_set_uint32_value (psql_adapter.c:204): promotes the uint32 to
int64_t (value preserved) and delegates to psql_set_int64_value. -/
def psql_set_uint32_value (val : Nat) : ParamData :=
  psql_set_int64_value (Int.ofNat val)

/-- psql_set_uint64_value (psql_adapter.c:234): casts the uint64 to
int64_t (a wrap; the byte pattern is unchanged) and delegates to
psql_set_int64_value. -/
def psql_set_uint64_value (val : Nat) : ParamData :=
  psql_set_int64_value (Int.ofNat val)

/-- psql_set_guid_value (psql_adapter.c:248): delegates through
psql_set_uint64_value. -/
def psql_set_guid_value (val : Nat) : ParamData := psql_set_uint64_value val

/-- psql_set_double_value (psql_adapter.c:140): reinterprets the 8
IEEE-754 bytes of the double as a uint64 and htonll-s them; the model
receives the bit pattern directly.  The C function returns
sizeof(uint64_t *) = 8 on an LP64 platform. -/
def psql_set_double_value (bits : Nat) : ParamData :=
  ParamData.bin (beBytes 8 (bits % 2 ^ 64)) 8

/-- psql_set_int8_value (psql_adapter.c:173): one byte, paramLength 1. -/
def psql_set_int8_value (val : Int) : ParamData :=
  ParamData.bin [toUInt 8 val] 1

/-- psql_set_bool_value (psql_adapter.c:262): delegates to
psql_set_int8_value. -/
def psql_set_bool_value (val : Int) : ParamData := psql_set_int8_value val

/-- Hexadecimal digit character. -/
def hexDigit (n : Nat) : Char := Char.ofNat (if n < 10 then 48 + n else 87 + n)

/-- Model of PQescapeByteaConn (libpq, external): the escaped text form of
a bytea, modelled as backslash-x followed by two hex characters per byte.
The exact escape format is irrelevant to the claims; what matters is that
the parameter is passed in text format. -/
def pqEscapeBytea (b : List Nat) : String :=
  ⟨'\\' :: 'x' ::
    b.foldr (fun bt acc => hexDigit (bt / 16) :: hexDigit (bt % 16) :: acc) []⟩

/-- Modelled from the spec: vector_*_to_json (json.c, not under src/)
renders a homogeneous vector as a JSON array in text form; elements are
carried as integers here since no claim inspects them. -/
def vectorToJson (v : List Int) : String :=
  "[" ++ String.intercalate ", " (v.map renderInt) ++ "]"

/-! ## The per-type payload dispatcher of psql_insert -/

/-- Tag naming the switch case whose body encoded into the scratch
buffer. -/
inductive EncTag
  | encLong
  | encInt32
  | encUint32
  | encInt64
  | encUint64
  | encDouble
  | encGuid
  | encBool
  | encString
  | encBlob
  | encVector
  deriving DecidableEq, Repr

/-- Outcome of the switch for one payload column: the writes performed on
the scratch buffer of the parameter, in program order (tag of the case
body, content written), together with the content the buffer holds when
the switch exits (the last write); or err for the return -1 paths. -/
inductive SlotResult
  | ok (data : ParamData) (writes : List (EncTag × ParamData))
  | err
  deriving DecidableEq, Repr

/-- Embedding of the per-type switch of psql_insert (psql_adapter.c:770).
Two properties of the C control flow are transcribed exactly:

* the block intended for OML_LONG_VALUE (lines 771 to 776, computing
  psql_set_long_value) carries no case label, so it is unreachable dead
  code, and a long-typed value reaches the default branch, which logs
  Unknown type and returns -1 (err here);
* the OML_UINT32_VALUE and OML_UINT64_VALUE case bodies end without
  break, so after their own encode control falls into the following case
  (OML_INT64_VALUE or OML_DOUBLE_VALUE), which re-encodes the scratch
  buffer from the aliased union member it reads and only then breaks.

The bool case first snprintf-s a textual 0/1 into the buffer and then
overwrites it with the one binary byte; only the surviving binary write is
recorded.  String reallocation failure (oml_realloc returning NULL) is an
environment outcome and is not modelled. -/
def psql_insert_encode_value (ftype : OmlValueT) (u : OmlValueU) :
    SlotResult :=
  match ftype with
  | .OML_LONG_VALUE => .err
  | .OML_INT32_VALUE =>
      .ok (psql_set_int32_value u.int32Value)
        [(.encInt32, psql_set_int32_value u.int32Value)]
  | .OML_UINT32_VALUE =>
      .ok (psql_set_int64_value u.int64Value)
        [(.encUint32, psql_set_uint32_value u.uint32Value),
         (.encInt64, psql_set_int64_value u.int64Value)]
  | .OML_INT64_VALUE =>
      .ok (psql_set_int64_value u.int64Value)
        [(.encInt64, psql_set_int64_value u.int64Value)]
  | .OML_UINT64_VALUE =>
      .ok (psql_set_double_value u.doubleBits)
        [(.encUint64, psql_set_uint64_value u.uint64Value),
         (.encDouble, psql_set_double_value u.doubleBits)]
  | .OML_DOUBLE_VALUE =>
      .ok (psql_set_double_value u.doubleBits)
        [(.encDouble, psql_set_double_value u.doubleBits)]
  | .OML_GUID_VALUE =>
      .ok (psql_set_int64_value (Int.ofNat u.guidValue))
        [(.encGuid, psql_set_int64_value (Int.ofNat u.guidValue))]
  | .OML_BOOL_VALUE =>
      .ok (psql_set_bool_value (if u.boolValue then 1 else 0))
        [(.encBool, psql_set_bool_value (if u.boolValue then 1 else 0))]
  | .OML_STRING_VALUE =>
      .ok (ParamData.txt u.stringValue) [(.encString, ParamData.txt u.stringValue)]
  | .OML_BLOB_VALUE =>
      .ok (ParamData.txt (pqEscapeBytea u.blobValue))
        [(.encBlob, ParamData.txt (pqEscapeBytea u.blobValue))]
  | .OML_VECTOR_DOUBLE_VALUE =>
      .ok (ParamData.txt (vectorToJson u.vectorValue))
        [(.encVector, ParamData.txt (vectorToJson u.vectorValue))]
  | .OML_VECTOR_INT32_VALUE =>
      .ok (ParamData.txt (vectorToJson u.vectorValue))
        [(.encVector, ParamData.txt (vectorToJson u.vectorValue))]
  | .OML_VECTOR_UINT32_VALUE =>
      .ok (ParamData.txt (vectorToJson u.vectorValue))
        [(.encVector, ParamData.txt (vectorToJson u.vectorValue))]
  | .OML_VECTOR_INT64_VALUE =>
      .ok (ParamData.txt (vectorToJson u.vectorValue))
        [(.encVector, ParamData.txt (vectorToJson u.vectorValue))]
  | .OML_VECTOR_UINT64_VALUE =>
      .ok (ParamData.txt (vectorToJson u.vectorValue))
        [(.encVector, ParamData.txt (vectorToJson u.vectorValue))]
  | .OML_VECTOR_BOOL_VALUE =>
      .ok (ParamData.txt (vectorToJson u.vectorValue))
        [(.encVector, ParamData.txt (vectorToJson u.vectorValue))]

/-! ## The full insert routine -/

/-- Environment outcomes psql_insert depends on: the result of
dba_reopen_transaction and of PQexecPrepared. -/
structure InsertEnv where
  reopen_ok : Bool
  exec_ok : Bool
  deriving DecidableEq, Repr

/-- The adapter state psql_insert touches: PsqlDB.last_commit. -/
structure PsqlDBState where
  last_commit : Int
  deriving DecidableEq, Repr

/-- Observable side effects of one psql_insert call, in program order. -/
inductive InsertEvent
  | evReopen
  | evExec
  deriving DecidableEq, Repr

/-- Result of one psql_insert call: the C return value, the adapter state
afterwards, the side effects in order, and the parameter list handed to
PQexecPrepared when the statement was executed (none when the call
returned before executing). -/
structure InsertOut where
  ret : Int
  st : PsqlDBState
  events : List InsertEvent
  executed : Option (List ParamData)
  deriving DecidableEq, Repr

/-- The payload loop of psql_insert (psql_adapter.c:760): for each column,
first the type check (oml_value_get_type(v) != field->type logs a type
mismatch and returns -1), then the per-type switch; any err aborts the
call.  Schema fields are reduced to their type (names are never consulted
here). -/
def psql_insert_payload : List (OmlValueT × OmlValue) →
    Option (List ParamData)
  | [] => some []
  | (ftype, v) :: cols =>
      if oml_value_get_type v ≠ ftype then none
      else
        match psql_insert_encode_value ftype v.value with
        | .err => none
        | .ok data _ => (psql_insert_payload cols).map (fun ps => data :: ps)

/-- Embedding of psql_insert (psql_adapter.c:714).  In program order: the
sender id, sequence number and client timestamp are encoded into the first
three scratch buffers; gettimeofday is read (tv_sec is passed in here, and
the server timestamp double computed from it in floating point is passed
in by its IEEE bits); if tv_sec > last_commit the transaction is reopened
through dba_reopen_transaction — modelled from the spec: it issues
COMMIT; BEGIN (ROLLBACK; BEGIN on a poisoned transaction; the source file
database_adapter.c is not under src/), its success is env.reopen_ok, and a
failure makes the insert return -1 — and on success last_commit is set to
tv_sec; then the server timestamp is encoded, the payload loop runs, and
PQexecPrepared executes the statement with the NMETA + n parameters, a
failed execution returning -1.  The four metadata parameters are split out
as psql_insert_meta below. -/
def psql_insert_meta (sender_id seq_no : Int)
    (ts_client_bits ts_server_bits : Nat) : List ParamData :=
  [psql_set_int32_value sender_id, psql_set_int32_value seq_no,
   psql_set_double_value ts_client_bits,
   psql_set_double_value ts_server_bits]

def psql_insert (env : InsertEnv) (st : PsqlDBState)
    (sender_id seq_no : Int) (ts_client_bits : Nat) (tv_sec : Int)
    (ts_server_bits : Nat) (cols : List (OmlValueT × OmlValue)) :
    InsertOut :=
  if tv_sec > st.last_commit then
    if env.reopen_ok then
      match psql_insert_payload cols with
      | none => ⟨-1, ⟨tv_sec⟩, [.evReopen], none⟩
      | some ps =>
          ⟨if env.exec_ok then 0 else -1, ⟨tv_sec⟩, [.evReopen, .evExec],
            some (psql_insert_meta sender_id seq_no ts_client_bits
                ts_server_bits ++ ps)⟩
    else ⟨-1, st, [.evReopen], none⟩
  else
    match psql_insert_payload cols with
    | none => ⟨-1, st, [], none⟩
    | some ps =>
        ⟨if env.exec_ok then 0 else -1, st, [.evExec],
          some (psql_insert_meta sender_id seq_no ts_client_bits
              ts_server_bits ++ ps)⟩

/-! ## Table-list rediscovery (psql_get_table_list) -/

/-- A table descriptor (table_descr_new; server/table_descr.c is not under
src/, modelled from the spec): the table name and its parsed schema, null
for the phony _senders entry.  The parsed schema representation is opaque
to this function and carried as a string. -/
structure TableDescr where
  tname : String
  tschema : Option String
  deriving DecidableEq, Repr

/-- Environment outcomes psql_get_table_list depends on: success of the
PQprepare of the table-list statement, of its execution, and of the
PQprepare of the schema-lookup statement.  Allocation failure of
table_descr_new is a further unmodelled error path. -/
structure TableListEnv where
  prep_table_ok : Bool
  exec_table_ok : Bool
  prep_schema_ok : Bool
  deriving DecidableEq, Repr

/-- Second loop of psql_get_table_list (psql_adapter.c:1185): walk the
query rows in order; the _senders table gets a phony descriptor with a
null schema; for any other table the serialised schema is fetched from
_experiment_metadata under key table_<name> (first matching row of the
prepared SELECT) and parsed by schema_from_meta — modelled as the parse
parameter, lib/shared/schema.c not being under src/ — and a missing or
unparseable schema skips the table with a warning.  Each descriptor is
pushed at the head (t->next = tables; tables = t), so the returned list is
in reverse query order, with num_tables counting the descriptors kept. -/
def psql_table_list_loop (metadata : KVTable)
    (parse : String → Option String) :
    List String → List TableDescr → Nat → List TableDescr × Nat
  | [], acc, n => (acc, n)
  | tablename :: rest, acc, n =>
      if tablename = "_senders" then
        psql_table_list_loop metadata parse rest
          (⟨tablename, none⟩ :: acc) (n + 1)
      else
        match psql_get_key_value metadata ("table_" ++ tablename) with
        | none => psql_table_list_loop metadata parse rest acc n
        | some meta =>
            match parse meta with
            | none => psql_table_list_loop metadata parse rest acc n
            | some schema =>
                psql_table_list_loop metadata parse rest
                  (⟨tablename, some schema⟩ :: acc) (n + 1)

/-- Embedding of psql_get_table_list (psql_adapter.c:1117).  The rows of
the pg_tables query (user table names, excluding the pg and sql prefixes,
filtered by the statement itself) are passed in as tablenames, and the
_experiment_metadata rows as metadata.  Returns the descriptor list (empty
standing for the NULL pointer) and the value stored into *num_tables: -1
on the fail_exit path, 0 when the _experiment_metadata table is absent
(the early new-database return, which precedes the schema-statement
preparation), and the descriptor count otherwise. -/
def psql_get_table_list (env : TableListEnv) (tablenames : List String)
    (metadata : KVTable) (parse : String → Option String) :
    List TableDescr × Int :=
  if env.prep_table_ok then
    if env.exec_table_ok then
      if "_experiment_metadata" ∈ tablenames then
        if env.prep_schema_ok then
          ((psql_table_list_loop metadata parse tablenames [] 0).1,
            Int.ofNat (psql_table_list_loop metadata parse tablenames [] 0).2)
        else ([], -1)
      else ([], 0)
    else ([], -1)
  else ([], -1)

/-! ## Collection-URI parsing (oml_utils.c) -/

/-- URI scheme types (OmlURIType).  The enum itself is declared in
oml_utils.h, which is not under src/; the range tests of oml_uri_is_file
and oml_uri_is_network in oml_utils.c fix the declared order as unknown,
file, flush, tcp, udp, which the two Boolean tests below spell out. -/
inductive OmlURIType
  | OML_URI_UNKNOWN
  | OML_URI_FILE
  | OML_URI_FILE_FLUSH
  | OML_URI_TCP
  | OML_URI_UDP
  deriving DecidableEq, Repr

/-- Embedding of oml_uri_type (oml_utils.c:296): initial-segment tests on
the URI, flush before file before tcp before udp. -/
def oml_uri_type (uri : List Char) : OmlURIType :=
  if List.isPrefixOf "flush".toList uri then OmlURIType.OML_URI_FILE_FLUSH
  else if List.isPrefixOf "file".toList uri then OmlURIType.OML_URI_FILE
  else if List.isPrefixOf "tcp".toList uri then OmlURIType.OML_URI_TCP
  else if List.isPrefixOf "udp".toList uri then OmlURIType.OML_URI_UDP
  else OmlURIType.OML_URI_UNKNOWN

/-- oml_uri_is_file (oml_utils.c:322): t in the file range of the enum. -/
def oml_uri_is_file : OmlURIType → Bool
  | OmlURIType.OML_URI_FILE => true
  | OmlURIType.OML_URI_FILE_FLUSH => true
  | _ => false

/-- oml_uri_is_network (oml_utils.c:330): t in the network range of the
enum. -/
def oml_uri_is_network : OmlURIType → Bool
  | OmlURIType.OML_URI_TCP => true
  | OmlURIType.OML_URI_UDP => true
  | _ => false

/-- Model of strsep(3) on a non-NULL string: the token before the first
occurrence of any delimiter and the remainder after that occurrence, none
when no delimiter occurs (strsep then sets *stringp to NULL). -/
def strsep (s : List Char) (delims : List Char) :
    List Char × Option (List Char) :=
  match s with
  | [] => ([], none)
  | c :: cs =>
      if c ∈ delims then ([], some cs)
      else
        let r := strsep cs delims
        (c :: r.1, r.2)

/-- strsep through a string pointer that may be NULL: strsep(&p) with
*p == NULL returns NULL and leaves p NULL. -/
def strsepO : Option (List Char) → List Char →
    Option (List Char) × Option (List Char)
  | none, _ => (none, none)
  | some s, ds => ((strsep s ds).1, (strsep s ds).2)

/-- Result of parse_uri: the C return value as ok (true for 0, false for
-1), the three output strings (each possibly NULL), and whether a logwarn
was issued during the call. -/
structure ParseUriOut where
  ok : Bool
  protocol : Option String
  path : Option String
  port : Option String
  warned : Bool
  deriving DecidableEq, Repr

/-- The trydup macro of parse_uri: duplicate parts[i] when it is non-NULL
and lengths[i] > 0, otherwise NULL. -/
def parseUriTrydup : Option (List Char) → Option String
  | some cs => if cs.length > 0 then some ⟨cs⟩ else none
  | none => none

/-- Length bookkeeping of parse_uri: lengths[i] is strlen(parts[i]), 0 for
a NULL part. -/
def parseUriLen : Option (List Char) → Nat
  | some cs => cs.length
  | none => 0

/-- Cutting phase of parse_uri (oml_utils.c:361): the duplicated URI is
first split at the opening bracket.  When a bracket is present: any
non-empty part before it is cut at a colon to give parts[0]; the bracket
content up to the closing bracket gives the next part; the remainder is
cut at a colon, whose tail gives the following part; when nothing
preceded the bracket the unused-items loop then clears parts[2].  Without
a bracket the parsing restarts, cutting the URI at the first two colons
(the remainder after the second colon, colons included, stays in
parts[2]). -/
def parse_uri_parts (u : List Char) :
    Option (List Char) × Option (List Char) × Option (List Char) :=
  match (strsep u ['[']).2 with
  | some rest =>
      if (strsep u ['[']).1 ≠ [] then
        (some (strsep (strsep u ['[']).1 [':']).1,
          some (strsep rest [']']).1,
          (strsepO (strsep rest [']']).2 [':']).2)
      else
        (some (strsep rest [']']).1,
          (strsepO (strsep rest [']']).2 [':']).2,
          none)
  | none =>
      (some (strsep u [':']).1,
        (strsepO (strsep u [':']).2 [':']).1,
        (strsepO (strsep u [':']).2 [':']).2)

/-- Embedding of parse_uri (oml_utils.c:348).  After the cutting phase the
outputs are chosen from the part lengths and the scheme type: two leading
parts make case 1 (scheme kept for a network or file scheme, otherwise the
two parts are hostname/path and port with no warning); a first and third
part only is the invalid abc::123 form, warned about; a single part is a
plain hostname/path, warned about — assuming tcp — exactly when the token
begins with a known scheme name; an empty URI is an error through
logerror, which is not a warning. -/
def parse_uri (uri : String) : ParseUriOut :=
  let u := uri.toList
  let ut := oml_uri_type u
  let parts := parse_uri_parts u
  let l0 := parseUriLen parts.1
  let l1 := parseUriLen parts.2.1
  let l2 := parseUriLen parts.2.2
  if l0 > 0 ∧ l1 > 0 then
    if oml_uri_is_network ut then
      ⟨true, parseUriTrydup parts.1, parseUriTrydup parts.2.1,
        parseUriTrydup parts.2.2, false⟩
    else if oml_uri_is_file ut then
      ⟨true, parseUriTrydup parts.1, parseUriTrydup parts.2.1, none, false⟩
    else
      ⟨true, none, parseUriTrydup parts.1, parseUriTrydup parts.2.1, false⟩
  else if l0 > 0 ∧ l2 > 0 then
    ⟨false, none, none, none, true⟩
  else if l0 > 0 then
    ⟨true, none, parseUriTrydup parts.1, none,
      decide (ut ≠ OmlURIType.OML_URI_UNKNOWN)⟩
  else
    ⟨false, none, none, none, false⟩

/-! ## zlib helpers: return codes and the inflate wrapper (zlib_utils.c)

The zlib library itself is external.  For claim C8 the wrapper
oml_zlib_inf is transcribed over a trace: an abstract record of what the
external calls (fread, inflate, inflateSync, fwrite) return during one
run.  Every behaviour of the real libraries corresponds to some trace, and
the wrapper control flow is a function of the trace alone. -/

def Z_OK : Int := 0

def Z_STREAM_END : Int := 1

def Z_NEED_DICT : Int := 2

def Z_ERRNO : Int := -1

def Z_STREAM_ERROR : Int := -2

def Z_DATA_ERROR : Int := -3

def Z_MEM_ERROR : Int := -4

/-- OML_ZLIB_CHUNKSIZE (zlib_utils.h, not under src/); the concrete value
matters to no claim, only that it is positive. -/
def OML_ZLIB_CHUNKSIZE : Nat := 16384

/-- One inflate call inside the inner loop of oml_zlib_inf, as the wrapper
observes it: the return code, the avail_out left after the call (the
output buffer then holds CHUNKSIZE - avail_out bytes), whether the
following fwrite of those bytes succeeds, and what inflateSync returns
when the wrapper invokes it at this point. -/
structure InfStep where
  ret : Int
  avail_out : Nat
  write_ok : Bool
  sync_ok : Bool
  deriving DecidableEq, Repr

/-- One iteration of the outer read loop of oml_zlib_inf: whether ferror
is set after the fread, the byte count read (avail_in), and the inflate
calls the inner loop observes while this input buffer is consumed. -/
structure InfChunk where
  ferror : Bool
  avail_in : Nat
  steps : List InfStep
  deriving DecidableEq, Repr

/-- Exit of oml_zlib_inf: an early return statement inside the loops with
its code, or the normal exit of the read loop carrying the last inflate
status ret (the loop ends when ret == Z_STREAM_END, when a read returns
no bytes, or — trace exhaustion — at end of input). -/
inductive InfExit
  | early (code : Int)
  | normal (lastRet : Int)
  deriving DecidableEq, Repr

/-- Z_NEED_DICT is turned into Z_DATA_ERROR and falls through into its
case (zlib_utils.c:175). -/
def zlibNeedDictFix (r : Int) : Int :=
  if r = Z_NEED_DICT then Z_DATA_ERROR else r

/-- Resync bookkeeping of the Z_DATA_ERROR case (zlib_utils.c:177): a
second consecutive data error after a resync sets resynced to 2; otherwise
a successful inflateSync sets it to 1; any other return code leaves it
unchanged. -/
def zlibResyncUpdate (ret1 : Int) (resynced : Nat) (sync_ok : Bool) :
    Nat :=
  if ret1 = Z_DATA_ERROR then
    if resynced = 1 then 2
    else if sync_ok then 1 else resynced
  else resynced

/-- Reset of the resync flag when output bytes were produced
(zlib_utils.c:198): have = CHUNKSIZE - avail_out. -/
def zlibHaveReset (avail_out resynced : Nat) : Nat :=
  if OML_ZLIB_CHUNKSIZE - avail_out > 0 then 0 else resynced

/-- Inner decompression loop of oml_zlib_inf (zlib_utils.c:162): each
pass resets the output buffer unless a resync is pending, calls inflate,
returns Z_STREAM_ERROR for a clobbered state, maps Z_NEED_DICT to
Z_DATA_ERROR, updates the resync state, returns Z_MEM_ERROR on allocation
failure, fwrites the produced bytes (a short write or ferror returns
Z_ERRNO) and clears the resync flag when bytes came out; it loops while
the output buffer was filled completely (avail_out == 0) or a resync is
pending.  The trace being finite, an exhausted trace ends the loop as if
the condition turned false; the Sum.inl result carries (ret, resynced) at
loop exit, Sum.inr an early return code. -/
def oml_zlib_inf_inner : List InfStep → Nat → Int → Sum (Int × Nat) Int
  | [], resynced, ret => Sum.inl (ret, resynced)
  | s :: steps, resynced, _ =>
      if s.ret = Z_STREAM_ERROR then Sum.inr Z_STREAM_ERROR
      else
        if zlibNeedDictFix s.ret = Z_MEM_ERROR then Sum.inr Z_MEM_ERROR
        else if ¬ s.write_ok then Sum.inr Z_ERRNO
        else
          if s.avail_out = 0 ∨
              zlibHaveReset s.avail_out
                (zlibResyncUpdate (zlibNeedDictFix s.ret) resynced
                  s.sync_ok) ≠ 0 then
            oml_zlib_inf_inner steps
              (zlibHaveReset s.avail_out
                (zlibResyncUpdate (zlibNeedDictFix s.ret) resynced
                  s.sync_ok))
              (zlibNeedDictFix s.ret)
          else
            Sum.inl (zlibNeedDictFix s.ret,
              zlibHaveReset s.avail_out
                (zlibResyncUpdate (zlibNeedDictFix s.ret) resynced
                  s.sync_ok))

/-- Outer read loop of oml_zlib_inf (zlib_utils.c:149): fread a chunk; on
ferror return Z_ERRNO; a zero-byte read breaks out keeping the current
ret; otherwise the inner loop runs, early returns propagate, and the loop
repeats until ret == Z_STREAM_END.  ret and resynced persist across
iterations; an exhausted trace is read as end-of-file. -/
def oml_zlib_inf_outer : List InfChunk → Nat → Int → InfExit
  | [], _, ret => InfExit.normal ret
  | c :: cs, resynced, ret =>
      if c.ferror then InfExit.early Z_ERRNO
      else if c.avail_in = 0 then InfExit.normal ret
      else
        match oml_zlib_inf_inner c.steps resynced ret with
        | Sum.inr code => InfExit.early code
        | Sum.inl (ret1, resynced1) =>
            if ret1 = Z_STREAM_END then InfExit.normal ret1
            else oml_zlib_inf_outer cs resynced1 ret1

/-- Exit of one oml_zlib_inf run (zlib_utils.c:127): init_ret is the
inflateInit2 result, returned directly when it is not Z_OK; otherwise the
loops run with ret starting at the init result and resynced at 0. -/
def oml_zlib_inf_exit (init_ret : Int) (trace : List InfChunk) : InfExit :=
  if init_ret ≠ Z_OK then InfExit.early init_ret
  else oml_zlib_inf_outer trace 0 init_ret

/-- Return value of oml_zlib_inf: an early return code as is; on the
normal loop exit, Z_OK when ret reached Z_STREAM_END and Z_DATA_ERROR
otherwise (zlib_utils.c:210). -/
def oml_zlib_inf (init_ret : Int) (trace : List InfChunk) : Int :=
  match oml_zlib_inf_exit init_ret trace with
  | InfExit.early code => code
  | InfExit.normal r => if r = Z_STREAM_END then Z_OK else Z_DATA_ERROR

/-! ## Byte-level zlib wrappers over a spec-modelled stored codec (C9)

oml_zlib_def and oml_zlib_inf drive the external zlib deflate/inflate.
For the round-trip law the codec pair is modelled from the spec (the gzip
header 1F 8B, the 00 00 FF FF flush/trailer marker, streaming with
Z_FINISH at end of input; zlib itself is not part of this repository) as a
stored-bytes codec: deflate emits the gzip header on its first call, then
each non-empty input chunk as one block — a length symbol followed by the
bytes — and the trailer marker on Z_FINISH, reporting Z_STREAM_END then;
inflate is the matching byte-level state machine.  Bytes are carried as
naturals and the block length as one symbol of the model alphabet.  The
inner avail_out drain loops of both wrappers move these same bytes to the
destination FILE in CHUNKSIZE pieces; they are collapsed here, which
preserves the concatenated output stream the FILE receives. -/

def gzHeader : List Nat := [31, 139]

def gzTrailer : List Nat := [0, 0, 255, 255]

/-- Partition of a byte stream into the successive fread chunks of
OML_ZLIB_CHUNKSIZE bytes. -/
def chunksOf (l : List Nat) : List (List Nat) :=
  if h : l = [] then []
  else l.take OML_ZLIB_CHUNKSIZE :: chunksOf (l.drop OML_ZLIB_CHUNKSIZE)
termination_by l.length
decreasing_by
  simp only [List.length_drop]
  exact Nat.sub_lt (List.length_pos.mpr h) (by decide)

/-- Block stream of the stored codec: each chunk rendered as its length
symbol followed by its bytes. -/
def zBlocks (chunks : List (List Nat)) : List Nat :=
  chunks.foldr (fun c acc => (c.length :: c) ++ acc) []

/-- The bytes the stored-codec deflate produces for a whole source
stream. -/
def defBytes (source : List Nat) : List Nat :=
  gzHeader ++ zBlocks (chunksOf source) ++ gzTrailer

/-- Embedding of the read loop of oml_zlib_def (zlib_utils.c:66) over the
stored codec.  Each iteration freads up to CHUNKSIZE bytes; a short read
sets feof, making flush Z_FINISH (a source of exact multiple length gets
a final zero-byte FINISH read); the chunk is fed to deflate — the header
on the first call, one block per non-empty chunk, the trailer on finish —
and all deflate output is written (the avail_out == 0 drain loop,
collapsed); deflate consumes its whole input, satisfying the avail_in
check; the loop ends after the FINISH call, whose status is Z_STREAM_END,
satisfying the final check, and Z_OK is returned together with the bytes
written to dest.  FILE errors (the Z_ERRNO paths) are environment
outcomes, not modelled here. -/
def oml_zlib_def_loop (input : List Nat) (hdrDone : Bool) :
    Int × List Nat :=
  if h : input.length < OML_ZLIB_CHUNKSIZE then
    (Z_OK,
      (if hdrDone then [] else gzHeader) ++
        (if input = [] then [] else input.length :: input) ++ gzTrailer)
  else
    ((oml_zlib_def_loop (input.drop OML_ZLIB_CHUNKSIZE) true).1,
      ((if hdrDone then [] else gzHeader) ++
          (input.take OML_ZLIB_CHUNKSIZE).length ::
            input.take OML_ZLIB_CHUNKSIZE) ++
        (oml_zlib_def_loop (input.drop OML_ZLIB_CHUNKSIZE) true).2)
termination_by input.length
decreasing_by
  all_goals
    simp only [List.length_drop]
    refine Nat.sub_lt ?_ (by decide)
    exact Nat.lt_of_lt_of_le (by decide) (Nat.le_of_not_lt h)

/-- Embedding of oml_zlib_def (zlib_utils.c:47) over the stored codec:
run the read loop with the header not yet emitted. -/
def oml_zlib_def (source : List Nat) : Int × List Nat :=
  oml_zlib_def_loop source false

/-- States of the stored-codec inflate: expecting the two header bytes, a
block marker (a length symbol, or the first trailer byte 0), copying k
remaining block bytes, the three remaining trailer bytes, the stream end,
or a corrupt stream. -/
inductive ZIState
  | sH0
  | sH1
  | sBlk
  | sCopy (k : Nat)
  | sT1
  | sT2
  | sT3
  | sEnd
  | sBad
  deriving DecidableEq, Repr

/-- One input byte of the stored-codec inflate: successor state and bytes
emitted to the output.  A block is entered from sBlk on a positive length
symbol; the byte 0 there starts the trailer. -/
def ziStep : ZIState → Nat → ZIState × List Nat
  | ZIState.sH0, b => (if b = 31 then ZIState.sH1 else ZIState.sBad, [])
  | ZIState.sH1, b => (if b = 139 then ZIState.sBlk else ZIState.sBad, [])
  | ZIState.sBlk, b => (if b = 0 then ZIState.sT1 else ZIState.sCopy b, [])
  | ZIState.sCopy k, b =>
      (if k = 1 then ZIState.sBlk else ZIState.sCopy (k - 1), [b])
  | ZIState.sT1, b => (if b = 0 then ZIState.sT2 else ZIState.sBad, [])
  | ZIState.sT2, b => (if b = 255 then ZIState.sT3 else ZIState.sBad, [])
  | ZIState.sT3, b => (if b = 255 then ZIState.sEnd else ZIState.sBad, [])
  | ZIState.sEnd, _ => (ZIState.sBad, [])
  | ZIState.sBad, _ => (ZIState.sBad, [])

/-- Run of the stored-codec inflate over a buffer of compressed bytes. -/
def ziRun : ZIState → List Nat → ZIState × List Nat
  | st, [] => (st, [])
  | st, b :: bs =>
      ((ziRun (ziStep st b).1 bs).1,
        (ziStep st b).2 ++ (ziRun (ziStep st b).1 bs).2)

/-- Inflate return status after a buffer is consumed: Z_STREAM_END at the
stream end, Z_DATA_ERROR on a corrupt stream, Z_OK mid-stream. -/
def ziCode : ZIState → Int
  | ZIState.sEnd => Z_STREAM_END
  | ZIState.sBad => Z_DATA_ERROR
  | _ => Z_OK

/-- Embedding of the read loop of oml_zlib_inf (zlib_utils.c:149) over the
stored codec, carrying the inflate state across iterations.  Each
iteration freads up to CHUNKSIZE compressed bytes (a zero-byte read
breaks the loop, keeping the current ret for the final check); inflate
consumes them, all produced output being written (the inner drain loop,
collapsed); with this codec inflateSync is modelled as unsuccessful (the
marker scan is left as a TODO in the C source), so on a Z_DATA_ERROR
status resynced stays 0 and the loop simply continues reading; the loop
ends at the Z_STREAM_END status, and the final return is Z_OK exactly
when the last status was Z_STREAM_END.  The list returned is everything
written to dest. -/
def oml_zlib_inf_stream_loop (st : ZIState) (input : List Nat)
    (ret : Int) : Int × List Nat :=
  if h : input = [] then
    (if ret = Z_STREAM_END then Z_OK else Z_DATA_ERROR, [])
  else
    if ziCode (ziRun st (input.take OML_ZLIB_CHUNKSIZE)).1
        = Z_STREAM_END then
      (Z_OK, (ziRun st (input.take OML_ZLIB_CHUNKSIZE)).2)
    else
      ((oml_zlib_inf_stream_loop (ziRun st (input.take OML_ZLIB_CHUNKSIZE)).1
          (input.drop OML_ZLIB_CHUNKSIZE)
          (ziCode (ziRun st (input.take OML_ZLIB_CHUNKSIZE)).1)).1,
        (ziRun st (input.take OML_ZLIB_CHUNKSIZE)).2 ++
          (oml_zlib_inf_stream_loop
            (ziRun st (input.take OML_ZLIB_CHUNKSIZE)).1
            (input.drop OML_ZLIB_CHUNKSIZE)
            (ziCode (ziRun st (input.take OML_ZLIB_CHUNKSIZE)).1)).2)
termination_by input.length
decreasing_by
  all_goals
    simp only [List.length_drop]
    exact Nat.sub_lt (List.length_pos.mpr h) (by decide)

/-- Embedding of oml_zlib_inf over the stored codec (the byte-level
counterpart of the trace transcription oml_zlib_inf above): the inflate
state starts before the header, ret starts at the Z_OK of
inflateInit2. -/
def oml_zlib_inf_stream (compressed : List Nat) : Int × List Nat :=
  oml_zlib_inf_stream_loop ZIState.sH0 compressed Z_OK

/-! ## Helper lemmas for the key/value store -/

theorem psql_get_key_value_append_of_none {tbl : KVTable} {k v : String}
    (h : psql_get_key_value tbl k = none) :
    psql_get_key_value (tbl ++ [(k, v)]) k = some v := by
  induction tbl with
  | nil => simp [psql_get_key_value]
  | cons r rows ih =>
      unfold psql_get_key_value at h ⊢
      by_cases hk : r.1 = k
      · simp [hk] at h
      · simpa [hk] using ih (by simpa [hk] using h)

theorem psql_get_key_value_map_update {tbl : KVTable} {k w v : String}
    (h : psql_get_key_value tbl k = some w) :
    psql_get_key_value
      (tbl.map (fun r => if r.1 = k then (r.1, v) else r)) k = some v := by
  induction tbl with
  | nil => simp [psql_get_key_value] at h
  | cons r rows ih =>
      unfold psql_get_key_value at h ⊢
      by_cases hk : r.1 = k
      · simp [hk]
      · simp only [hk, if_false] at h ⊢
        simpa [psql_get_key_value, hk] using ih h

theorem kvRowCount_map_update (tbl : KVTable) (k v : String) :
    kvRowCount (tbl.map (fun r => if r.1 = k then (r.1, v) else r)) k
      = kvRowCount tbl k := by
  induction tbl with
  | nil => rfl
  | cons r rows ih =>
      unfold kvRowCount at ih ⊢
      by_cases hk : r.1 = k <;>
        simp [List.filter_cons, hk, ih]

theorem kvRowCount_eq_zero_of_none {tbl : KVTable} {k : String}
    (h : psql_get_key_value tbl k = none) : kvRowCount tbl k = 0 := by
  induction tbl with
  | nil => rfl
  | cons r rows ih =>
      unfold psql_get_key_value at h
      by_cases hk : r.1 = k
      · simp [hk] at h
      · have htl := ih (by simpa [hk] using h)
        unfold kvRowCount at htl ⊢
        simp [List.filter_cons, hk, htl]

theorem kvRowCount_append (tbl : KVTable) (k v : String) :
    kvRowCount (tbl ++ [(k, v)]) k = kvRowCount tbl k + 1 := by
  unfold kvRowCount
  simp [List.filter_append, List.filter_cons]

/-! ## Helper lemmas for the payload loop -/

theorem psql_insert_payload_none_of_mismatch
    {cols : List (OmlValueT × OmlValue)}
    (h : ∃ c ∈ cols, oml_value_get_type c.2 ≠ c.1) :
    psql_insert_payload cols = none := by
  induction cols with
  | nil => simp at h
  | cons c cols ih =>
      obtain ⟨d, hd, hne⟩ := h
      obtain ⟨ft, v⟩ := c
      unfold psql_insert_payload
      by_cases hv : oml_value_get_type v ≠ ft
      · simp [hv]
      · rcases List.mem_cons.mp hd with hd | hd
        · subst hd
          exact absurd hne hv
        · have hrec := ih ⟨d, hd, hne⟩
          cases henc : psql_insert_encode_value ft v.value with
          | err => simp [hv, henc]
          | ok data w => simp [hv, henc, hrec]

theorem psql_insert_payload_types {cols : List (OmlValueT × OmlValue)}
    {ps : List ParamData} (h : psql_insert_payload cols = some ps) :
    ∀ c ∈ cols, oml_value_get_type c.2 = c.1 := by
  induction cols generalizing ps with
  | nil => simp
  | cons c cols ih =>
      obtain ⟨ft, v⟩ := c
      unfold psql_insert_payload at h
      by_cases hv : oml_value_get_type v ≠ ft
      · simp [hv] at h
      · cases henc : psql_insert_encode_value ft v.value with
        | err => simp [hv, henc] at h
        | ok data w =>
            rw [if_neg hv, henc] at h
            cases hqs : psql_insert_payload cols with
            | none => rw [hqs] at h; simp at h
            | some qs =>
                intro d hd
                rcases List.mem_cons.mp hd with hd | hd
                · subst hd
                  exact not_not.mp hv
                · exact ih hqs d hd

/-! ## Claim theorems: C1 and C10 -/

/-- C1 counterexample: on a database whose _senders table is empty, the
first psql_add_sender_id("alpha") allocates id 1, not 0: the MAX(id) query
returns one row holding NULL, PQgetvalue renders it as the empty string,
atoi gives 0, and the C code adds 1. -/
theorem C1_counterexample :
    (psql_add_sender_id ([] : KVTable) "alpha").1 = 1 ∧
      ¬ (psql_add_sender_id ([] : KVTable) "alpha").1 = 0 := by
  constructor
  · rfl
  · decide

/-- C1 (amended): for an empty _senders table the first id allocated by
psql_add_sender_id is atoi("") + 1 = 1, not 0; on a new database
add_sender_id("alpha") returns 1, then add_sender_id("beta") returns
MAX(id)+1 = 2, and add_sender_id("alpha") returns 1 again (ids are stable
and the table keeps one row per sender). -/
theorem C1_sender_allocation :
    (psql_add_sender_id ([] : KVTable) "alpha").1 = 1 ∧
    (psql_add_sender_id (psql_add_sender_id ([] : KVTable) "alpha").2
        "beta").1 = 2 ∧
    (psql_add_sender_id
        (psql_add_sender_id (psql_add_sender_id ([] : KVTable) "alpha").2
          "beta").2 "alpha").1 = 1 ∧
    (psql_add_sender_id
        (psql_add_sender_id (psql_add_sender_id ([] : KVTable) "alpha").2
          "beta").2 "alpha").2
      = [("alpha", "1"), ("beta", "2")] := by
  refine ⟨rfl, ?_, ?_, ?_⟩ <;> decide

/-- C10: the key/value store is an upsert.  After a successful
psql_set_key_value the subsequent psql_get_key_value for the same key
returns the value just stored; the statement issued is an UPDATE exactly
when the key was already present (an INSERT otherwise), so the interface
never grows the number of rows for a key beyond one. -/
theorem C10_key_value_upsert (tbl : KVTable) (k v : String) :
    (psql_set_key_value tbl k v).ret = 0 ∧
    psql_get_key_value (psql_set_key_value tbl k v).table k = some v ∧
    kvRowCount (psql_set_key_value tbl k v).table k
        ≤ max 1 (kvRowCount tbl k) ∧
    ((psql_set_key_value tbl k v).stmt = KVStmt.updateStmt
        ↔ (psql_get_key_value tbl k).isSome) := by
  unfold psql_set_key_value
  cases h : psql_get_key_value tbl k with
  | none =>
      refine ⟨rfl, psql_get_key_value_append_of_none h, ?_, by simp⟩
      rw [kvRowCount_append, kvRowCount_eq_zero_of_none h]
      simp
  | some w =>
      refine ⟨rfl, psql_get_key_value_map_update h, ?_, by simp⟩
      rw [kvRowCount_map_update]
      exact Nat.le_max_right 1 _

/-! ## Claim theorems: C2 to C5 (psql_insert) -/

theorem psql_insert_executed_payload {env : InsertEnv} {st : PsqlDBState}
    {sender seq : Int} {tsc : Nat} {tvs : Int} {tss : Nat}
    {cols : List (OmlValueT × OmlValue)} {ps : List ParamData}
    (h : (psql_insert env st sender seq tsc tvs tss cols).executed
      = some ps) :
    ∃ qs, psql_insert_payload cols = some qs := by
  unfold psql_insert at h
  by_cases h1 : tvs > st.last_commit
  · rw [if_pos h1] at h
    by_cases h2 : env.reopen_ok = true
    · rw [if_pos h2] at h
      cases hq : psql_insert_payload cols with
      | none => rw [hq] at h; simp at h
      | some qs => exact ⟨qs, rfl⟩
    · rw [if_neg h2] at h
      simp at h
  · rw [if_neg h1] at h
    cases hq : psql_insert_payload cols with
    | none => rw [hq] at h; simp at h
    | some qs => exact ⟨qs, rfl⟩

/-- C2 (code bug): the claim — backed by the spec, which flags the missing
break statements as a latent issue and specifies each case as terminating
after its own encode — says a uint32 payload value is bound as its value
widened to int64, 8-byte big-endian, with its scratch buffer not
overwritten by any other encoder before execution.  The C code violates
this: the OML_UINT32_VALUE case has no break, so after
psql_set_uint32_value control falls into the OML_INT64_VALUE case body,
which overwrites the scratch buffer with the int64 encoding of the aliased
int64 union member.  Failing input: a uint32 value 5 whose union int64
slot carries stale high bytes (reading 2 ^ 32 + 5, as on a little-endian
overlay): the executed buffer holds the big-endian bytes of 2 ^ 32 + 5,
not the widened encoding of 5. -/
theorem C2_uint32_fallthrough_bug :
    psql_insert_encode_value OmlValueT.OML_UINT32_VALUE
        ⟨0, 0, 5, 2 ^ 32 + 5, 0, 0, 0, false, "", [], []⟩
      = SlotResult.ok (psql_set_int64_value (2 ^ 32 + 5))
          [(EncTag.encUint32, psql_set_uint32_value 5),
           (EncTag.encInt64, psql_set_int64_value (2 ^ 32 + 5))] ∧
    psql_set_int64_value (2 ^ 32 + 5) ≠ psql_set_uint32_value 5 :=
  ⟨rfl, by decide⟩

/-- C3 (code bug): the claim — backed by the spec type-map row for long
and by the orphaned code block at psql_adapter.c:771 computing
psql_set_long_value — says a long payload value is accepted and bound as a
4-byte big-endian INT4.  The switch carries no case OML_LONG_VALUE label,
so a long value reaches the default branch: psql_insert logs Unknown type
and returns -1 without executing the statement.  The last conjunct shows
the 4-byte big-endian encoding the unreachable block would have
produced. -/
theorem C3_long_value_rejected :
    (psql_insert ⟨true, true⟩ ⟨0⟩ 1 7 0 0 0
        [(OmlValueT.OML_LONG_VALUE,
          ⟨OmlValueT.OML_LONG_VALUE,
            ⟨42, 0, 0, 0, 0, 0, 0, false, "", [], []⟩⟩)]).ret = -1 ∧
    (psql_insert ⟨true, true⟩ ⟨0⟩ 1 7 0 0 0
        [(OmlValueT.OML_LONG_VALUE,
          ⟨OmlValueT.OML_LONG_VALUE,
            ⟨42, 0, 0, 0, 0, 0, 0, false, "", [], []⟩⟩)]).executed = none ∧
    psql_insert_encode_value OmlValueT.OML_LONG_VALUE
        ⟨42, 0, 0, 0, 0, 0, 0, false, "", [], []⟩ = SlotResult.err ∧
    psql_set_long_value 42 = ParamData.bin [0, 0, 0, 42] 4 :=
  ⟨rfl, rfl, rfl, by decide⟩

/-- C4: a payload value whose semantic type differs from the schema field
type makes psql_insert return -1 before PQexecPrepared runs, and the value
is never coerced (no encoder is applied to it: the call aborts at the type
check); consequently every parameter list actually handed to
PQexecPrepared comes from a row in which every payload value has exactly
the type of its schema field. -/
theorem C4_insert_type_check (env : InsertEnv) (st : PsqlDBState)
    (sender seq : Int) (tsc : Nat) (tvs : Int) (tss : Nat)
    (cols : List (OmlValueT × OmlValue)) :
    ((∃ c ∈ cols, oml_value_get_type c.2 ≠ c.1) →
        (psql_insert env st sender seq tsc tvs tss cols).ret = -1 ∧
        (psql_insert env st sender seq tsc tvs tss cols).executed = none) ∧
    (∀ ps,
        (psql_insert env st sender seq tsc tvs tss cols).executed = some ps →
        ∀ c ∈ cols, oml_value_get_type c.2 = c.1) := by
  constructor
  · intro h
    have hp := psql_insert_payload_none_of_mismatch h
    unfold psql_insert
    by_cases h1 : tvs > st.last_commit
    · rw [if_pos h1]
      by_cases h2 : env.reopen_ok = true
      · rw [if_pos h2, hp]
        exact ⟨rfl, rfl⟩
      · rw [if_neg h2]
        exact ⟨rfl, rfl⟩
    · rw [if_neg h1, hp]
      exact ⟨rfl, rfl⟩
  · intro ps hps
    obtain ⟨qs, hqs⟩ := psql_insert_executed_payload hps
    exact psql_insert_payload_types hqs

/-- Witness for C4 at a concrete input: the schema field is int32, the
supplied value is a string; the insert returns -1 without executing. -/
theorem C4_insert_type_check_witness :
    (psql_insert ⟨true, true⟩ ⟨0⟩ 1 2 0 0 0
        [(OmlValueT.OML_INT32_VALUE,
          ⟨OmlValueT.OML_STRING_VALUE,
            ⟨0, 0, 0, 0, 0, 0, 0, false, "x", [], []⟩⟩)]).ret = -1 ∧
    (psql_insert ⟨true, true⟩ ⟨0⟩ 1 2 0 0 0
        [(OmlValueT.OML_INT32_VALUE,
          ⟨OmlValueT.OML_STRING_VALUE,
            ⟨0, 0, 0, 0, 0, 0, 0, false, "x", [], []⟩⟩)]).executed = none :=
  (C4_insert_type_check ⟨true, true⟩ ⟨0⟩ 1 2 0 0 0
      [(OmlValueT.OML_INT32_VALUE,
        ⟨OmlValueT.OML_STRING_VALUE,
          ⟨0, 0, 0, 0, 0, 0, 0, false, "x", [], []⟩⟩)]).1 (by decide)

/-- C5: when the wall-clock second tv_sec of the insert is beyond
last_commit, the transaction is committed and reopened
(dba_reopen_transaction; modelled from the spec, database_adapter.c not
being under src/) before the row is executed, and last_commit advances to
tv_sec — so within the same second no further reopen happens, as the
second conjunct shows — while a reopen failure is propagated as insert
failure -1 without executing the row. -/
theorem C5_commit_heartbeat (env : InsertEnv) (st : PsqlDBState)
    (sender seq : Int) (tsc : Nat) (tvs : Int) (tss : Nat)
    (cols : List (OmlValueT × OmlValue)) :
    (tvs > st.last_commit →
      (env.reopen_ok = false →
        (psql_insert env st sender seq tsc tvs tss cols).ret = -1 ∧
        (psql_insert env st sender seq tsc tvs tss cols).executed = none) ∧
      (env.reopen_ok = true →
        (psql_insert env st sender seq tsc tvs tss cols).st.last_commit
            = tvs ∧
        (psql_insert env st sender seq tsc tvs tss cols).events.head?
            = some InsertEvent.evReopen)) ∧
    (¬ tvs > st.last_commit →
      (psql_insert env st sender seq tsc tvs tss cols).st = st ∧
      InsertEvent.evReopen ∉
        (psql_insert env st sender seq tsc tvs tss cols).events) := by
  constructor
  · intro h1
    constructor
    · intro h2
      unfold psql_insert
      rw [if_pos h1, if_neg (by simp [h2])]
      exact ⟨rfl, rfl⟩
    · intro h2
      unfold psql_insert
      rw [if_pos h1, if_pos h2]
      cases hq : psql_insert_payload cols <;> exact ⟨rfl, rfl⟩
  · intro h1
    unfold psql_insert
    rw [if_neg h1]
    cases hq : psql_insert_payload cols with
    | none => exact ⟨rfl, by simp⟩
    | some qs => exact ⟨rfl, by simp⟩

/-- Witness for C5 at a concrete input: at second 5 with last_commit 0 and
a successful reopen, last_commit advances to 5 and the reopen event comes
first. -/
theorem C5_commit_heartbeat_witness :
    (psql_insert ⟨true, true⟩ ⟨0⟩ 1 2 0 5 0 []).st.last_commit = 5 ∧
    (psql_insert ⟨true, true⟩ ⟨0⟩ 1 2 0 5 0 []).events.head?
      = some InsertEvent.evReopen :=
  ((C5_commit_heartbeat ⟨true, true⟩ ⟨0⟩ 1 2 0 5 0 []).1 (by decide)).2 rfl

/-! ## Claim theorems: C6 (table-list rediscovery) -/

/-- C6: on a database with no _experiment_metadata table (and with the two
statements that run before the check succeeding), psql_get_table_list
returns the empty list (NULL) and sets num_tables to 0 through the early
new-database return, not through the error path that would set num_tables
to -1. -/
theorem C6_table_list_fresh_db (env : TableListEnv)
    (tablenames : List String) (metadata : KVTable)
    (parse : String → Option String)
    (h1 : env.prep_table_ok = true) (h2 : env.exec_table_ok = true)
    (h : "_experiment_metadata" ∉ tablenames) :
    psql_get_table_list env tablenames metadata parse = ([], 0) := by
  unfold psql_get_table_list
  rw [if_pos h1, if_pos h2, if_neg h]

/-- Witness for C6 on a concrete fresh database holding only a user table
and the _senders table. -/
theorem C6_table_list_fresh_db_witness :
    psql_get_table_list ⟨true, true, true⟩ ["power", "_senders"] []
      (fun _ => none) = ([], 0) :=
  C6_table_list_fresh_db ⟨true, true, true⟩ ["power", "_senders"] []
    (fun _ => none) rfl rfl (by decide)

/-! ## Claim theorems: C7 (parse_uri) -/

/-- C7 counterexample: the claim says parse_uri("host.example:9999") logs
a warning, and that an unknown single-token scheme is warned about; in the
code neither input reaches a logwarn call — the two-token unknown-scheme
branch carries no warning at all, and the single-token branch warns only
when oml_uri_type recognises the token, i.e. when the scheme is known. -/
theorem C7_counterexample :
    (parse_uri "host.example:9999").warned = false ∧
    (parse_uri "localhost").warned = false := by
  exact ⟨rfl, rfl⟩

/-- C7 (amended): parse_uri returns the triples of the scenario —
("tcp", "::1", "3003") for "tcp:[::1]:3003", ("file", "/tmp/out.log",
null) for "file:/tmp/out.log", and (null, "host.example", "9999") for
"host.example:9999" — but no warning is logged for the unknown-scheme
host:port form; the assuming-tcp warning is issued only for a single-token
URI whose token begins with a known scheme name, as for
parse_uri("tcp"). -/
theorem C7_parse_uri_scenarios :
    parse_uri "tcp:[::1]:3003"
      = ⟨true, some "tcp", some "::1", some "3003", false⟩ ∧
    parse_uri "file:/tmp/out.log"
      = ⟨true, some "file", some "/tmp/out.log", none, false⟩ ∧
    parse_uri "host.example:9999"
      = ⟨true, none, some "host.example", some "9999", false⟩ ∧
    (parse_uri "tcp").warned = true := by
  exact ⟨rfl, rfl, rfl, rfl⟩

/-! ## Claim theorems: C8 (oml_zlib_inf) -/

theorem oml_zlib_inf_inner_early_ne {steps : List InfStep}
    {resynced : Nat} {ret code : Int}
    (h : oml_zlib_inf_inner steps resynced ret = Sum.inr code) :
    code ≠ Z_OK := by
  induction steps generalizing resynced ret with
  | nil => simp [oml_zlib_inf_inner] at h
  | cons s steps ih =>
      unfold oml_zlib_inf_inner at h
      by_cases h1 : s.ret = Z_STREAM_ERROR
      · rw [if_pos h1] at h
        simp only [Sum.inr.injEq] at h
        subst h
        decide
      · rw [if_neg h1] at h
        by_cases h2 : zlibNeedDictFix s.ret = Z_MEM_ERROR
        · rw [if_pos h2] at h
          simp only [Sum.inr.injEq] at h
          subst h
          decide
        · rw [if_neg h2] at h
          by_cases h3 : ¬ s.write_ok
          · rw [if_pos h3] at h
            simp only [Sum.inr.injEq] at h
            subst h
            decide
          · rw [if_neg h3] at h
            by_cases h4 : s.avail_out = 0 ∨
                zlibHaveReset s.avail_out
                  (zlibResyncUpdate (zlibNeedDictFix s.ret) resynced
                    s.sync_ok) ≠ 0
            · rw [if_pos h4] at h
              exact ih h
            · rw [if_neg h4] at h
              simp at h

theorem oml_zlib_inf_outer_early_ne {trace : List InfChunk}
    {resynced : Nat} {ret code : Int}
    (h : oml_zlib_inf_outer trace resynced ret = InfExit.early code) :
    code ≠ Z_OK := by
  induction trace generalizing resynced ret with
  | nil => simp [oml_zlib_inf_outer] at h
  | cons c cs ih =>
      unfold oml_zlib_inf_outer at h
      by_cases h1 : c.ferror
      · rw [if_pos h1] at h
        simp only [InfExit.early.injEq] at h
        subst h
        decide
      · rw [if_neg h1] at h
        by_cases h2 : c.avail_in = 0
        · rw [if_pos h2] at h
          simp at h
        · rw [if_neg h2] at h
          split at h
          next cod heq =>
            simp only [InfExit.early.injEq] at h
            subst h
            exact oml_zlib_inf_inner_early_ne heq
          next ret1 resynced1 heq =>
            by_cases hend : ret1 = Z_STREAM_END
            · rw [if_pos hend] at h
              simp at h
            · rw [if_neg hend] at h
              exact ih h

/-- C8: oml_zlib_inf returns Z_OK exactly when its inflate loop terminated
normally with the stream-end status Z_STREAM_END; a normal loop exit with
any other status returns Z_DATA_ERROR; and the early exits (read or write
failure Z_ERRNO, allocation failure Z_MEM_ERROR, clobbered state
Z_STREAM_ERROR, failed inflateInit2) never produce Z_OK, as the iff
direction shows. -/
theorem C8_inf_ok_iff_stream_end (init_ret : Int) (trace : List InfChunk) :
    (oml_zlib_inf init_ret trace = Z_OK ↔
      oml_zlib_inf_exit init_ret trace = InfExit.normal Z_STREAM_END) ∧
    (∀ r, oml_zlib_inf_exit init_ret trace = InfExit.normal r →
      r ≠ Z_STREAM_END → oml_zlib_inf init_ret trace = Z_DATA_ERROR) := by
  unfold oml_zlib_inf
  cases hexit : oml_zlib_inf_exit init_ret trace with
  | early code =>
      have hne : code ≠ Z_OK := by
        unfold oml_zlib_inf_exit at hexit
        by_cases hi : init_ret ≠ Z_OK
        · rw [if_pos hi] at hexit
          simp only [InfExit.early.injEq] at hexit
          subst hexit
          exact hi
        · rw [if_neg hi] at hexit
          exact oml_zlib_inf_outer_early_ne hexit
      constructor
      · simp [hne]
      · intro r hr
        simp at hr
  | normal r =>
      constructor
      · by_cases hend : r = Z_STREAM_END
        · simp [hend]
        · simp [hend, Z_DATA_ERROR, Z_OK]
      · intro r2 hr2 hne2
        simp only [InfExit.normal.injEq] at hr2
        subst hr2
        simp [hne2]

/-- Witness for C8: a run whose input is exhausted before the stream end
exits the read loop normally with status Z_OK, and the function then
returns Z_DATA_ERROR, not Z_OK. -/
theorem C8_inf_ok_iff_stream_end_witness :
    oml_zlib_inf_exit Z_OK [⟨false, 10, [⟨Z_OK, 5, true, true⟩]⟩]
        = InfExit.normal Z_OK ∧
    oml_zlib_inf Z_OK [⟨false, 10, [⟨Z_OK, 5, true, true⟩]⟩]
        = Z_DATA_ERROR :=
  ⟨by decide,
    (C8_inf_ok_iff_stream_end Z_OK
        [⟨false, 10, [⟨Z_OK, 5, true, true⟩]⟩]).2 Z_OK (by decide)
      (by decide)⟩

/-! ## Helper lemmas for the stored codec (C9) -/

theorem ziRun_nil (st : ZIState) : ziRun st [] = (st, []) := rfl

theorem ziRun_cons (st : ZIState) (b : Nat) (bs : List Nat) :
    ziRun st (b :: bs)
      = ((ziRun (ziStep st b).1 bs).1,
          (ziStep st b).2 ++ (ziRun (ziStep st b).1 bs).2) := rfl

theorem ziRun_append (a b : List Nat) (st : ZIState) :
    ziRun st (a ++ b)
      = ((ziRun (ziRun st a).1 b).1,
          (ziRun st a).2 ++ (ziRun (ziRun st a).1 b).2) := by
  induction a generalizing st with
  | nil => simp [ziRun_nil]
  | cons x xs ih =>
      simp only [List.cons_append, ziRun_cons, ih, List.append_assoc]

theorem ziRun_sBad (l : List Nat) :
    ziRun ZIState.sBad l = (ZIState.sBad, []) := by
  induction l with
  | nil => rfl
  | cons b bs ih => simp [ziRun_cons, ziStep, ih]

theorem ziRun_sEnd_cons (b : Nat) (bs : List Nat) :
    ziRun ZIState.sEnd (b :: bs) = (ZIState.sBad, []) := by
  simp [ziRun_cons, ziStep, ziRun_sBad]

theorem ziRun_copy (c : List Nat) (h : c ≠ []) :
    ziRun (ZIState.sCopy c.length) c = (ZIState.sBlk, c) := by
  induction c with
  | nil => exact absurd rfl h
  | cons b bs ih =>
      cases bs with
      | nil => simp [ziRun_cons, ziRun_nil, ziStep]
      | cons b2 bs2 =>
          have ih2 := ih (by simp)
          have hne : (b2 :: bs2).length + 1 ≠ 1 := by simp
          have hk : (b :: b2 :: bs2).length = (b2 :: bs2).length + 1 := rfl
          rw [ziRun_cons, hk]
          simp only [ziStep, if_neg hne, Nat.add_sub_cancel, ih2]
          simp

theorem ziRun_block (c : List Nat) (hc : c ≠ []) :
    ziRun ZIState.sBlk (c.length :: c) = (ZIState.sBlk, c) := by
  have hlen : c.length ≠ 0 := fun hh => hc (List.length_eq_zero.mp hh)
  rw [ziRun_cons]
  simp only [ziStep, if_neg hlen, ziRun_copy c hc]
  simp

theorem ziRun_zBlocks (cs : List (List Nat)) (h : ∀ c ∈ cs, c ≠ []) :
    ziRun ZIState.sBlk (zBlocks cs) = (ZIState.sBlk, cs.flatten) := by
  induction cs with
  | nil => simp [zBlocks, ziRun_nil]
  | cons c cs ih =>
      have hc : c ≠ [] := h c (by simp)
      have hcs := ih (fun d hd => h d (by simp [hd]))
      have hz : zBlocks (c :: cs) = (c.length :: c) ++ zBlocks cs := rfl
      rw [hz, ziRun_append, ziRun_block c hc]
      simp [hcs]

theorem chunksOf_nil : chunksOf [] = [] := by
  rw [chunksOf.eq_def]
  simp

theorem chunksOf_cons (l : List Nat) (h : l ≠ []) :
    chunksOf l
      = l.take OML_ZLIB_CHUNKSIZE ::
          chunksOf (l.drop OML_ZLIB_CHUNKSIZE) := by
  rw [chunksOf.eq_def]
  rw [dif_neg h]

theorem oml_zlib_def_loop_lt (input : List Nat) (hdr : Bool)
    (h : input.length < OML_ZLIB_CHUNKSIZE) :
    oml_zlib_def_loop input hdr
      = (Z_OK,
          (if hdr then [] else gzHeader) ++
            (if input = [] then [] else input.length :: input) ++
            gzTrailer) := by
  rw [oml_zlib_def_loop.eq_def, dif_pos h]

theorem oml_zlib_def_loop_ge (input : List Nat) (hdr : Bool)
    (h : ¬ input.length < OML_ZLIB_CHUNKSIZE) :
    oml_zlib_def_loop input hdr
      = ((oml_zlib_def_loop (input.drop OML_ZLIB_CHUNKSIZE) true).1,
          ((if hdr then [] else gzHeader) ++
              (input.take OML_ZLIB_CHUNKSIZE).length ::
                input.take OML_ZLIB_CHUNKSIZE) ++
            (oml_zlib_def_loop (input.drop OML_ZLIB_CHUNKSIZE) true).2) := by
  rw [oml_zlib_def_loop.eq_def, dif_neg h]

theorem oml_zlib_inf_stream_loop_nil (st : ZIState) (ret : Int) :
    oml_zlib_inf_stream_loop st [] ret
      = (if ret = Z_STREAM_END then Z_OK else Z_DATA_ERROR, []) := by
  rw [oml_zlib_inf_stream_loop.eq_def, dif_pos rfl]

theorem oml_zlib_inf_stream_loop_cons (st : ZIState) (input : List Nat)
    (ret : Int) (h : input ≠ []) :
    oml_zlib_inf_stream_loop st input ret
      = if ziCode (ziRun st (input.take OML_ZLIB_CHUNKSIZE)).1
            = Z_STREAM_END then
          (Z_OK, (ziRun st (input.take OML_ZLIB_CHUNKSIZE)).2)
        else
          ((oml_zlib_inf_stream_loop
              (ziRun st (input.take OML_ZLIB_CHUNKSIZE)).1
              (input.drop OML_ZLIB_CHUNKSIZE)
              (ziCode (ziRun st (input.take OML_ZLIB_CHUNKSIZE)).1)).1,
            (ziRun st (input.take OML_ZLIB_CHUNKSIZE)).2 ++
              (oml_zlib_inf_stream_loop
                (ziRun st (input.take OML_ZLIB_CHUNKSIZE)).1
                (input.drop OML_ZLIB_CHUNKSIZE)
                (ziCode (ziRun st
                  (input.take OML_ZLIB_CHUNKSIZE)).1)).2) := by
  rw [oml_zlib_inf_stream_loop.eq_def, dif_neg h]

theorem chunksOf_spec :
    ∀ (n : Nat) (l : List Nat), l.length ≤ n →
      (chunksOf l).flatten = l ∧ ∀ c ∈ chunksOf l, c ≠ [] := by
  intro n
  induction n with
  | zero =>
      intro l hlen
      have hnil : l = [] := by
        cases l with
        | nil => rfl
        | cons a as => simp at hlen
      subst hnil
      rw [chunksOf_nil]
      simp
  | succ n ih =>
      intro l hlen
      by_cases hl : l = []
      · subst hl
        rw [chunksOf_nil]
        simp
      · rw [chunksOf_cons l hl]
        have hC : 1 ≤ OML_ZLIB_CHUNKSIZE := by decide
        have hdroplen : (l.drop OML_ZLIB_CHUNKSIZE).length ≤ n := by
          simp only [List.length_drop]
          omega
        obtain ⟨hj, hne⟩ := ih _ hdroplen
        constructor
        · simp [hj, List.take_append_drop]
        · intro c hc
          rcases List.mem_cons.mp hc with hc | hc
          · subst hc
            intro hnil
            rcases List.take_eq_nil_iff.mp hnil with hh | hh
            · exact absurd hh (by decide)
            · exact hl hh
          · exact hne c hc

theorem ziRun_defBytes (S : List Nat) :
    ziRun ZIState.sH0 (defBytes S) = (ZIState.sEnd, S) := by
  obtain ⟨hj, hne⟩ := chunksOf_spec S.length S le_rfl
  have h1 : ziRun ZIState.sH0 gzHeader = (ZIState.sBlk, []) := rfl
  have h2 := ziRun_zBlocks (chunksOf S) hne
  have h3 : ziRun ZIState.sBlk gzTrailer = (ZIState.sEnd, []) := rfl
  unfold defBytes
  simp [ziRun_append, h1, h2, h3, hj]

theorem oml_zlib_def_loop_spec :
    ∀ (n : Nat) (input : List Nat) (hdr : Bool), input.length ≤ n →
      oml_zlib_def_loop input hdr
        = (Z_OK, (if hdr then [] else gzHeader) ++
            zBlocks (chunksOf input) ++ gzTrailer) := by
  intro n
  induction n with
  | zero =>
      intro input hdr hlen
      have hnil : input = [] := by
        cases input with
        | nil => rfl
        | cons a as => simp at hlen
      subst hnil
      rw [oml_zlib_def_loop_lt [] hdr (by decide), chunksOf_nil]
      simp [zBlocks]
  | succ n ih =>
      intro input hdr hlen
      by_cases hlt : input.length < OML_ZLIB_CHUNKSIZE
      · rw [oml_zlib_def_loop_lt input hdr hlt]
        by_cases hnil : input = []
        · subst hnil
          rw [chunksOf_nil]
          simp [zBlocks]
        · have hle : input.length ≤ OML_ZLIB_CHUNKSIZE := le_of_lt hlt
          have htake : input.take OML_ZLIB_CHUNKSIZE = input :=
            List.take_of_length_le hle
          have hdrop : input.drop OML_ZLIB_CHUNKSIZE = [] :=
            List.drop_eq_nil_of_le hle
          rw [chunksOf_cons input hnil, htake, hdrop, chunksOf_nil]
          simp [zBlocks, hnil]
      · have hC : 1 ≤ OML_ZLIB_CHUNKSIZE := by decide
        have hlen2 : (input.drop OML_ZLIB_CHUNKSIZE).length ≤ n := by
          simp only [List.length_drop]
          omega
        have hnil : input ≠ [] := by
          intro hh
          subst hh
          simp at hlt
          omega
        rw [oml_zlib_def_loop_ge input hdr hlt, ih _ true hlen2,
          chunksOf_cons input hnil]
        simp [zBlocks, List.append_assoc]

theorem ziCode_eq_stream_end (st : ZIState) :
    ziCode st = Z_STREAM_END ↔ st = ZIState.sEnd := by
  cases st <;> simp [ziCode, Z_STREAM_END, Z_OK, Z_DATA_ERROR]

theorem oml_zlib_inf_stream_loop_ok :
    ∀ (n : Nat) (input : List Nat) (st : ZIState) (ret : Int)
      (out : List Nat), input.length ≤ n → input ≠ [] →
      ziRun st input = (ZIState.sEnd, out) →
      oml_zlib_inf_stream_loop st input ret = (Z_OK, out) := by
  intro n
  induction n with
  | zero =>
      intro input st ret out hlen hne _
      cases input with
      | nil => exact absurd rfl hne
      | cons a as => simp at hlen
  | succ n ih =>
      intro input st ret out hlen hne hrun
      rw [oml_zlib_inf_stream_loop_cons st input ret hne]
      by_cases hd : input.drop OML_ZLIB_CHUNKSIZE = []
      · have hle : input.length ≤ OML_ZLIB_CHUNKSIZE :=
          List.drop_eq_nil_iff.mp hd
        have htake : input.take OML_ZLIB_CHUNKSIZE = input :=
          List.take_of_length_le hle
        rw [htake, hrun]
        simp [ziCode]
      · have happ : ziRun st (input.take OML_ZLIB_CHUNKSIZE ++
            input.drop OML_ZLIB_CHUNKSIZE) = (ZIState.sEnd, out) := by
          rw [List.take_append_drop]
          exact hrun
        rw [ziRun_append, Prod.mk.injEq] at happ
        obtain ⟨h1, h2⟩ := happ
        have hstne : (ziRun st (input.take OML_ZLIB_CHUNKSIZE)).1
            ≠ ZIState.sEnd := by
          intro he
          rw [he] at h1
          cases hdrop : input.drop OML_ZLIB_CHUNKSIZE with
          | nil => exact hd hdrop
          | cons b bs =>
              rw [hdrop, ziRun_sEnd_cons] at h1
              simp at h1
        have hcode : ziCode (ziRun st (input.take OML_ZLIB_CHUNKSIZE)).1
            ≠ Z_STREAM_END := fun hh =>
          hstne ((ziCode_eq_stream_end _).mp hh)
        rw [if_neg hcode]
        have hC : 1 ≤ OML_ZLIB_CHUNKSIZE := by decide
        have hlen2 : (input.drop OML_ZLIB_CHUNKSIZE).length ≤ n := by
          simp only [List.length_drop]
          omega
        have hpair : ziRun (ziRun st (input.take OML_ZLIB_CHUNKSIZE)).1
            (input.drop OML_ZLIB_CHUNKSIZE)
            = (ZIState.sEnd,
              (ziRun (ziRun st (input.take OML_ZLIB_CHUNKSIZE)).1
                (input.drop OML_ZLIB_CHUNKSIZE)).2) := by
          rw [← h1]
        have hrec := ih _ _
          (ziCode (ziRun st (input.take OML_ZLIB_CHUNKSIZE)).1) _
          hlen2 hd hpair
        rw [hrec]
        simp [h2]

/-! ## Claim theorem: C9 (deflate then inflate round trip) -/

/-- C9: for every finite byte stream S, compressing with oml_zlib_def and
decompressing the result with oml_zlib_inf writes back exactly the bytes
of S, both calls returning Z_OK.  The zlib codec itself is external to the
repository and is modelled from the spec as the stored gzip-framed codec
(see the section comment above); the theorem shows the chunked read and
write plumbing of the two wrappers loses, duplicates and reorders
nothing. -/
theorem C9_deflate_inflate_roundtrip (S : List Nat) :
    oml_zlib_def S = (Z_OK, defBytes S) ∧
    oml_zlib_inf_stream (defBytes S) = (Z_OK, S) := by
  constructor
  · unfold oml_zlib_def
    rw [oml_zlib_def_loop_spec S.length S false le_rfl]
    simp [defBytes]
  · unfold oml_zlib_inf_stream
    refine oml_zlib_inf_stream_loop_ok (defBytes S).length _ _ _ _
      le_rfl ?_ (ziRun_defBytes S)
    simp [defBytes, gzHeader]

end OML
